import Mathlib

/-!
Shallow embedding of the life_web simulation core, translated from
`src/biot.rs` and `src/biot_collection.rs`.

Conventions of the embedding:
* All `f32`/`f64` arithmetic of the source is modelled as exact rational
  arithmetic (`ℚ`).  Decimal literals such as `0.1` denote the exact
  rationals.
* The random source (`macroquad::rand::gen_range`, the re-exported
  quad-rand crate) returns a value in the half-open interval `[lo, hi)`;
  integer draws from `gen_range(0, n)` are therefore modelled as `Fin n`
  values, and float draws from `gen_range(0., 1.)` as rationals with the
  interval bounds as hypotheses.  Normalized random unit vectors
  (`random_move`) are supplied directly by oracle records, since no claim
  depends on their numeric value.
* The rstar spatial index is modelled through its observable behaviour:
  the squared distance of the element produced by
  `nearest_neighbor_iter_with_distance_2(..).nth(5)` is a parameter of
  `Biot.step`, ascending nearest-neighbour sequences are list parameters,
  and `locate_within_distance(p, r)` selects the points whose squared
  Euclidean distance to `p` is at most `r`.
* Comparisons of a Euclidean distance (`Vec2::length`, a square root not
  available over `ℚ`) against a nonnegative bound are modelled in squared
  form: `dist < t` becomes `0 < t ∧ dist2 < t ^ 2`, an equivalence for
  exact real arithmetic since distances are nonnegative.
-/

namespace LifeWeb

/-- The `Gene` enumeration from `src/biot.rs` (six variants, no payload). -/
inductive Gene where
  | None
  | Attack
  | Defense
  | Photosynthesis
  | Motion
  | Intelligence
  deriving DecidableEq, Repr

/-- The `match` inside `Gene::random`: discriminants `0..=5` map to the six
variants; any other value hits the `unreachable!` arm, modelled as `none`. -/
def Gene.ofIdx? : Nat → Option Gene
  | 0 => some Gene.None
  | 1 => some Gene.Attack
  | 2 => some Gene.Defense
  | 3 => some Gene.Photosynthesis
  | 4 => some Gene.Motion
  | 5 => some Gene.Intelligence
  | _ => none

/-- `Gene::random`: the raw draw is `rand::gen_range::<u8>(0, 5)`, whose
result lies in `[0, 5)`, hence the `Fin 5` argument.  The `getD` default
stands for the `unreachable!` arm; it is never taken for draws below 5. -/
def Gene.random (d : Fin 5) : Gene :=
  (Gene.ofIdx? d.val).getD Gene.None

/-- A genome is the gene array `[Gene; 13]`; the length-13 invariant is
carried as a hypothesis where a claim needs it. -/
abbrev Genome := List Gene

/-- `Genome::random`: 13 independent draws of `Gene::random`. -/
def Genome.random (draws : Fin 13 → Fin 5) : Genome :=
  (List.finRange 13).map (fun i => Gene.random (draws i))

/-- `Genome::mutate`: `which` comes from `gen_range(0, 13)` and the new gene
from `Gene::random`; the selected slot is overwritten. -/
def Genome.mutate (genes : Genome) (which : Fin 13) (draw : Fin 5) : Genome :=
  genes.set which.val (Gene.random draw)

/-- The five derived traits of a biot (`Properties` in `src/biot.rs`). -/
structure Properties where
  attack : ℚ
  defense : ℚ
  photosynthesis : ℚ
  motion : ℚ
  intelligence : ℚ
  deriving DecidableEq, Repr

/-- `Properties::default()` (all fields `0.0` by `#[derive(Default)]`). -/
def Properties.default : Properties := ⟨0, 0, 0, 0, 0⟩

instance : Inhabited Properties := ⟨Properties.default⟩

/-- `Properties::reset`: sets every trait back to `0.0`. -/
def Properties.reset (_self : Properties) : Properties := ⟨0, 0, 0, 0, 0⟩

/-- One iteration of the accumulation loop in `Properties::adjust_to_genome`. -/
def Properties.applyGene (p : Properties) (g : Gene) : Properties :=
  match g with
  | Gene.None => p
  | Gene.Attack => { p with attack := p.attack + 0.1 }
  | Gene.Defense => { p with defense := p.defense + 0.1 }
  | Gene.Photosynthesis => { p with photosynthesis := p.photosynthesis + 0.1 }
  | Gene.Motion => { p with motion := p.motion + 0.1 }
  | Gene.Intelligence => { p with intelligence := p.intelligence + 10.0 }

/-- `Properties::adjust_to_genome`: reset, then accumulate over the genome. -/
def Properties.adjust_to_genome (self : Properties) (genome : Genome) : Properties :=
  genome.foldl Properties.applyGene self.reset

/-- `Properties::metabolism`. -/
def Properties.metabolism (p : Properties) : ℚ :=
  0.2 * (4.5 * p.attack + 2.3 * p.defense + 2.5 * p.motion + 0.1 * p.intelligence)

/-- `Properties::weight`. -/
def Properties.weight (p : Properties) : ℚ :=
  p.attack + p.defense + p.photosynthesis + p.motion

/-- The truncated (toward zero) integer part, the semantics of the quotient
underlying the Rust float remainder operator. -/
def ratTrunc (q : ℚ) : ℤ :=
  if 0 ≤ q then ⌊q⌋ else ⌈q⌉

/-- The Rust `%` operator on floats: `a - b * trunc(a / b)` (the remainder
carries the sign of the dividend). -/
def rustRem (a b : ℚ) : ℚ :=
  a - b * ratTrunc (a / b)

/-- The free function `modulus` in `src/biot.rs`: `((a % b) + b) % b`. -/
def modulus (a b : ℚ) : ℚ :=
  rustRem (rustRem a b + b) b

/-- The mutable runtime state of a biot (`Stats` in `src/biot.rs`); the two
`Vec2` fields are split into their coordinates. -/
structure Stats where
  life : ℚ
  posX : ℚ
  posY : ℚ
  speedX : ℚ
  speedY : ℚ
  age : Nat
  deriving DecidableEq, Repr

/-- `Stats::default()`: zero life, position and speed at the origin, age 0. -/
def Stats.default : Stats := ⟨0, 0, 0, 0, 0, 0⟩

/-- A biot: stats, genome and derived properties. -/
structure Biot where
  stats : Stats
  genome : Genome
  properties : Properties
  deriving DecidableEq, Repr

instance : Inhabited Biot := ⟨⟨Stats.default, [], Properties.default⟩⟩

/-- `Biot::base_life`: `8.0 * weight`. -/
def Biot.base_life (b : Biot) : ℚ := 8.0 * b.properties.weight

/-- `Biot::is_dead`: `life <= 0.0 || age >= 10000`. -/
def Biot.is_dead (b : Biot) : Prop :=
  b.stats.life ≤ 0 ∨ 10000 ≤ b.stats.age

instance (b : Biot) : Decidable (Biot.is_dead b) :=
  inferInstanceAs (Decidable (b.stats.life ≤ 0 ∨ 10000 ≤ b.stats.age))

/-- `Biot::is_stronger`: `self.attack > other.attack + other.defense * 0.8`. -/
def Biot.is_stronger (a b : Biot) : Prop :=
  b.properties.attack + b.properties.defense * 0.8 < a.properties.attack

instance (a b : Biot) : Decidable (Biot.is_stronger a b) :=
  inferInstanceAs
    (Decidable (b.properties.attack + b.properties.defense * 0.8 < a.properties.attack))

/-- The position of a biot as a coordinate pair. -/
def Biot.pos (b : Biot) : ℚ × ℚ := (b.stats.posX, b.stats.posY)

/-- Squared Euclidean distance, the `distance_2` metric of the spatial
index (`TreePoint::distance_2` in `src/biot.rs`). -/
def dist2 (p q : ℚ × ℚ) : ℚ :=
  (p.1 - q.1) * (p.1 - q.1) + (p.2 - q.2) * (p.2 - q.2)

/-- `Biot::accelerate`: `speed += dir * speed_scalar`, coordinatewise. -/
def Biot.accelerate (b : Biot) (dirX dirY speed : ℚ) : Biot :=
  { b with stats := { b.stats with
      speedX := b.stats.speedX + dirX * speed,
      speedY := b.stats.speedY + dirY * speed } }

/-- The random draws consumed by one `Genome::mutate` call inside the
reproduction loop: the `while` coin from `gen_range(0., 1.)`, the slot from
`gen_range(0, 13)` and the gene discriminant from `gen_range(0, 5)`. -/
structure MutationDraw where
  coin : ℚ
  which : Fin 13
  gene : Fin 5
  deriving Repr

/-- The random draws consumed by one `Biot::step` call. -/
structure StepOracle where
  mutationDraws : List MutationDraw
  offspringDirX : ℚ
  offspringDirY : ℚ
  motionCoin : ℚ
  motionDirX : ℚ
  motionDirY : ℚ
  deriving Repr

/-- `Biot::mutate`: mutate the genome, then recompute the properties. -/
def Biot.mutate (b : Biot) (which : Fin 13) (draw : Fin 5) : Biot :=
  let newGenome := Genome.mutate b.genome which draw
  { b with genome := newGenome,
           properties := Properties.adjust_to_genome b.properties newGenome }

/-- The `while rand::gen_range(0., 1.) < 0.2 { off.mutate() }` loop of
`Biot::step`: each iteration first draws the coin, then mutates.  The draw
list is finite, modelling the entropy actually consumed by the loop. -/
def Biot.mutateLoop : List MutationDraw → Biot → Biot
  | [], b => b
  | d :: rest, b =>
      if d.coin < 0.2 then Biot.mutateLoop rest (Biot.mutate b d.which d.gene) else b

/-- The crowding test of `Biot::step`:
`close_by.map_or(true, |(_, d2)| d2 > 200.)`, where `close_by` is the
element (with squared distance) returned by
`nearest_neighbor_iter_with_distance_2(pos).nth(5)`. -/
def crowdingOK (closeBy : Option ℚ) : Prop :=
  match closeBy with
  | none => True
  | some d2 => 200 < d2

instance (closeBy : Option ℚ) : Decidable (crowdingOK closeBy) :=
  match closeBy with
  | none => inferInstanceAs (Decidable True)
  | some d2 => inferInstanceAs (Decidable (200 < d2))

/-- The reproduction block at the top of `Biot::step` (the body of
`if self.stats.life >= self.base_life() * adult_factor` with
`adult_factor = 4.`).  Returns the updated parent and the optional
offspring. -/
def Biot.reproPhase (b : Biot) (closeBy : Option ℚ) (o : StepOracle) : Biot × Option Biot :=
  if Biot.base_life b * 4.0 ≤ b.stats.life then
    if crowdingOK closeBy then
      let off0 := { b with stats := { b.stats with age := 0 } }
      let off1 := Biot.mutateLoop o.mutationDraws off0
      let off2 := { off1 with stats := { off1.stats with life := Biot.base_life off1 } }
      let off3 := Biot.accelerate off2 o.offspringDirX o.offspringDirY 1.5
      ({ b with stats := { b.stats with life := (4.0 - 1.0) * Biot.base_life b } }, some off3)
    else (b, none)
  else (b, none)

/-- The position update of `Biot::step`: `pos += speed` followed by the
`modulus` wrap on each axis against the screen extents. -/
def Biot.movePhase (b : Biot) (width height : ℚ) : Biot :=
  { b with stats := { b.stats with
      posX := modulus (b.stats.posX + b.stats.speedX) width,
      posY := modulus (b.stats.posY + b.stats.speedY) height } }

/-- The velocity decay of `Biot::step`: `speed *= 0.9`. -/
def Biot.dragPhase (b : Biot) : Biot :=
  { b with stats := { b.stats with
      speedX := b.stats.speedX * 0.9,
      speedY := b.stats.speedY * 0.9 } }

/-- The energy update of `Biot::step`:
`life += (photosynthesis - metabolism()) * 0.4`. -/
def Biot.energyPhase (b : Biot) : Biot :=
  { b with stats := { b.stats with
      life := b.stats.life +
        (b.properties.photosynthesis - Properties.metabolism b.properties) * 0.4 } }

/-- The motion decision of `Biot::step`.  The division `7 * motion / weight`
is total over `ℚ` (zero denominator yields 0), where the source produces a
non-finite float; no claim treated here depends on that branch value. -/
def Biot.motionPhase (b : Biot) (feedDir : Option (ℚ × ℚ)) (o : StepOracle) : Biot :=
  if o.motionCoin < 0.2 * b.properties.motion then
    let speed := 7.0 * b.properties.motion / Properties.weight b.properties
    if 0 < b.properties.intelligence then
      match feedDir with
      | some fd => Biot.accelerate b fd.1 fd.2 speed
      | none => Biot.accelerate b o.motionDirX o.motionDirY speed
    else Biot.accelerate b o.motionDirX o.motionDirY speed
  else b

/-- The age increment of `Biot::step`: `age += 1`. -/
def Biot.agePhase (b : Biot) : Biot :=
  { b with stats := { b.stats with age := b.stats.age + 1 } }

/-- `Biot::step`: the full ordered phase sequence.  `closeBy` is the squared
distance of the 6th element of the nearest-neighbour iteration from the
pre-step position (`None` when fewer than 6 indexed points exist), `feedDir`
the optional feed direction supplied by the population manager, `width` and
`height` the screen extents. -/
def Biot.step (b : Biot) (closeBy : Option ℚ) (feedDir : Option (ℚ × ℚ))
    (width height : ℚ) (o : StepOracle) : Biot × Option Biot :=
  let rp := Biot.reproPhase b closeBy o
  let b1 := Biot.movePhase rp.1 width height
  let b2 := Biot.dragPhase b1
  let b3 := Biot.energyPhase b2
  let b4 := Biot.motionPhase b3 feedDir o
  let b5 := Biot.agePhase b4
  (b5, rp.2)

/-- The proximity test inside `Biot::interact`:
`(biots[i].pos - biots[j].pos).length() < 10.0 * (weight_i + weight_j)`,
in squared form (see the header note on distance comparisons). -/
def Biot.withinReach (a b : Biot) : Prop :=
  0 < 10.0 * (Properties.weight a.properties + Properties.weight b.properties) ∧
  dist2 (Biot.pos a) (Biot.pos b) <
    (10.0 * (Properties.weight a.properties + Properties.weight b.properties)) ^ 2

instance (a b : Biot) : Decidable (Biot.withinReach a b) :=
  inferInstanceAs (Decidable (_ ∧ _))

/-- `Biot::interact(biots, i, j)`: combat resolution on the current list
entries at `i` and `j` (the source indexes `biots[i]` and `biots[j]`
directly).  Both reads happen before either write, matching the source
order (the winner reads the loser energy before it is zeroed). -/
def Biot.interact (bs : List Biot) (i j : Nat) : List Biot :=
  if Biot.withinReach (bs.getD i default) (bs.getD j default) then
    if Biot.is_stronger (bs.getD i default) (bs.getD j default) then
      (bs.set i { bs.getD i default with stats := { (bs.getD i default).stats with
          life := (bs.getD i default).stats.life + (bs.getD j default).stats.life * 0.8 } }).set j
        { bs.getD j default with stats := { (bs.getD j default).stats with life := 0 } }
    else if Biot.is_stronger (bs.getD j default) (bs.getD i default) then
      (bs.set j { bs.getD j default with stats := { (bs.getD j default).stats with
          life := (bs.getD j default).stats.life + (bs.getD i default).stats.life * 0.8 } }).set i
        { bs.getD i default with stats := { (bs.getD i default).stats with life := 0 } }
    else bs
  else bs

/-- The pair-selection double loop of `BiotCollection::step`: for every
indexed point `f` of the tree and every point `s` with
`distance_2(s, f) <= 50.0` (the contract of
`locate_within_distance([f.x, f.y], 50.0)`), `interact` runs when
`f.idx < s.idx`.  The resulting list of resolved index pairs, from the
pre-step position snapshot `ps`. -/
def combatPairs (ps : List (ℚ × ℚ)) : List (Nat × Nat) :=
  (List.range ps.length).flatMap fun i =>
    ((List.range ps.length).filter
        (fun j => decide (i < j ∧ dist2 (ps.getD i (0, 0)) (ps.getD j (0, 0)) ≤ 50))).map
      fun j => (i, j)

/-- The `TreePoint` record stored in the rstar tree. -/
structure TreePoint where
  x : ℚ
  y : ℚ
  idx : Nat
  deriving DecidableEq, Repr

/-- The feed-target selection loop of `BiotCollection::step`, over the
ascending `(neighbour, squared_distance)` sequence of the tree: skip the
own point, stop once the squared distance exceeds
`intelligence * intelligence * 1600.0`, and take the first neighbour the
biot `is_stronger` than. -/
def selectFeedTarget (selfBiot : Biot) (selfIdx : Nat) (biots : List Biot) :
    List (TreePoint × ℚ) → Option TreePoint
  | [] => none
  | (n, d2) :: rest =>
      if n.idx = selfIdx then selectFeedTarget selfBiot selfIdx biots rest
      else if selfBiot.properties.intelligence * selfBiot.properties.intelligence * 1600.0 < d2
        then none
      else if Biot.is_stronger selfBiot (biots.getD n.idx default) then some n
      else selectFeedTarget selfBiot selfIdx biots rest

/-- The argument of the `.normalize()` call that produces the feed
direction in `BiotCollection::step`:
`vec2(neighbour.x - self.pos.x, neighbour.y - self.pos.y)`. -/
def feedVec (selfPos nPos : ℚ × ℚ) : ℚ × ℚ :=
  (nPos.1 - selfPos.1, nPos.2 - selfPos.2)

/-- The feed-direction computation of `BiotCollection::step` for the biot
at `idx`, up to the final `.normalize()`: `none` when the biot has no
intelligence or no qualifying neighbour, otherwise the vector handed to
`normalize`. -/
def computeFeedVec (biots : List Biot) (idx : Nat) (neighbors : List (TreePoint × ℚ)) :
    Option (ℚ × ℚ) :=
  let b := biots.getD idx default
  if 0 < b.properties.intelligence then
    match selectFeedTarget b idx biots neighbors with
    | some n => some (feedVec (Biot.pos b) (n.x, n.y))
    | none => none
  else none

/-- The random draws consumed by one `Biot::random_biot` call: the 13 gene
discriminants and the two `gen_range(0., 1.)` position factors. -/
structure RandomBiotOracle where
  geneDraws : Fin 13 → Fin 5
  posDrawX : ℚ
  posDrawY : ℚ

/-- `Stats::position_randomly`:
`pos = (gen_range(0., 1.) * screen_width(), gen_range(0., 1.) * screen_height())`. -/
def Stats.position_randomly (s : Stats) (o : RandomBiotOracle) (width height : ℚ) : Stats :=
  { s with posX := o.posDrawX * width, posY := o.posDrawY * height }

/-- `Biot::random_biot`: random genome, derived properties, random position,
then `life = base_life()`. -/
def Biot.random_biot (o : RandomBiotOracle) (width height : ℚ) : Biot :=
  let genome := Genome.random o.geneDraws
  let properties := Properties.adjust_to_genome Properties.default genome
  let stats := Stats.position_randomly Stats.default o width height
  let s : Biot := ⟨stats, genome, properties⟩
  { s with stats := { s.stats with life := Biot.base_life s } }

/-- `BiotCollection::new(len)`: `len` random biots. -/
def BiotCollection.new (len : Nat) (oracle : Nat → RandomBiotOracle)
    (width height : ℚ) : List Biot :=
  (List.range len).map fun i => Biot.random_biot (oracle i) width height

/-- The number of positions at which two gene lists differ (compared
slotwise over the common length). -/
def countDiff (a b : List Gene) : Nat :=
  ((a.zip b).filter fun p => decide (p.1 ≠ p.2)).length

/-! ## Theorems -/

/-- Claim C2 (code_bug evidence): `Gene::random` draws its discriminant from
`gen_range::<u8>(0, 5)`, whose values lie in `[0, 5)`; no such draw yields
`Intelligence`, even though the match arm for discriminant 5 would produce
it.  The claim (all six variants each with probability 1/6) is therefore
violated by the code: only five variants are reachable, each with
probability 1/5, and the `Intelligence` arm is dead code. -/
theorem gene_random_never_intelligence :
    (∀ d : Fin 5, Gene.random d ≠ Gene.Intelligence) ∧
    Gene.ofIdx? 5 = some Gene.Intelligence :=
  ⟨by decide, by decide⟩

/-- Claim C3 (counterexample): no epsilon offset is applied at the feed
direction call site.  With an intelligent biot at the origin and a weaker
distinct-index neighbour at the same position, the vector handed to
`normalize` is exactly `(0, 0)`: the degenerate zero-length normalization
branch is reachable. -/
theorem feed_direction_epsilon_counterexample :
    computeFeedVec
      [⟨⟨5, 0, 0, 0, 0, 0⟩, [], ⟨0.1, 0, 0, 0, 10.0⟩⟩,
        ⟨⟨5, 0, 0, 0, 0, 0⟩, [], Properties.default⟩]
      0 [(⟨0, 0, 0⟩, 0), (⟨0, 0, 1⟩, 0)] = some (0, 0) := by
  norm_num [computeFeedVec, selectFeedTarget, feedVec, Biot.is_stronger, Biot.pos,
    Properties.default]

/-- Claim C3 (amended): the population manager applies no epsilon offset
before normalizing; the vector passed to `normalize` is the raw
self-to-neighbour difference, which is zero-length exactly when the
neighbour indexed position coincides with the organism position (and is a
well-defined nonzero vector otherwise). -/
theorem feedVec_zero_iff_coincident (p n : ℚ × ℚ) :
    feedVec p n = (0, 0) ↔ n = p := by
  cases p with
  | mk px py =>
      cases n with
      | mk nx ny => simp [feedVec, Prod.ext_iff, sub_eq_zero]

/-- Claim C7: a biot is classified dead exactly when its energy is at most 0
or its age is at least 10000; in particular energy exactly 0 is dead, age
exactly 10000 is dead regardless of energy, and positive energy with age
below 10000 is never dead. -/
theorem is_dead_characterization :
    (∀ b : Biot, Biot.is_dead b ↔ (b.stats.life ≤ 0 ∨ 10000 ≤ b.stats.age)) ∧
    Biot.is_dead ⟨⟨0, 1, 2, 3, 4, 5⟩, [], Properties.default⟩ ∧
    Biot.is_dead ⟨⟨7, 1, 2, 3, 4, 10000⟩, [], Properties.default⟩ ∧
    ¬ Biot.is_dead ⟨⟨7, 1, 2, 3, 4, 9999⟩, [], Properties.default⟩ := by
  refine ⟨fun b => Iff.rfl, Or.inl (by norm_num), Or.inr (by norm_num), ?_⟩
  rw [Biot.is_dead]
  push_neg
  constructor <;> norm_num

/-- Claim C9: `adjust_to_genome` resets the five traits before
re-accumulating, so its result is independent of the prior trait values and
recomputing twice from the same genome equals recomputing once. -/
theorem adjust_to_genome_idempotent (p q : Properties) (g : Genome) :
    Properties.adjust_to_genome p g = Properties.adjust_to_genome q g ∧
    Properties.adjust_to_genome (Properties.adjust_to_genome p g) g =
      Properties.adjust_to_genome p g :=
  ⟨rfl, rfl⟩

/-- Two equal gene lists differ at no position. -/
theorem countDiff_self (l : List Gene) : countDiff l l = 0 := by
  induction l with
  | nil => rfl
  | cons a t ih => simpa [countDiff] using ih

/-- Overwriting one slot of a gene list changes at most one position. -/
theorem countDiff_set_le (l : List Gene) (w : Nat) (g : Gene) :
    countDiff l (l.set w g) ≤ 1 := by
  induction l generalizing w with
  | nil => simp [countDiff]
  | cons a t ih =>
      cases w with
      | zero =>
          have h0 := countDiff_self t
          unfold countDiff at h0 ⊢
          simp only [List.set, List.zip_cons_cons, List.filter_cons]
          split
          next hcond => rw [List.length_cons]; omega
          next hcond => omega
      | succ w =>
          have h := ih w
          unfold countDiff at h ⊢
          simp only [List.set, List.zip_cons_cons, List.filter_cons]
          split
          next hcond => simp at hcond
          next hcond => exact h

/-- Claim C8: `Genome::mutate` keeps the genome at exactly 13 genes, changes
it in at most one position (possibly zero when the redraw coincides), and
leaves every slot other than the drawn one unchanged. -/
theorem genome_mutate_changes_at_most_one (genes : Genome) (which : Fin 13) (draw : Fin 5)
    (h : genes.length = 13) :
    (Genome.mutate genes which draw).length = 13 ∧
    countDiff genes (Genome.mutate genes which draw) ≤ 1 ∧
    ∀ i : Nat, i ≠ which.val →
      (Genome.mutate genes which draw).getD i Gene.None = genes.getD i Gene.None := by
  refine ⟨by simpa [Genome.mutate] using h, countDiff_set_le genes which.val (Gene.random draw),
    fun i hi => ?_⟩
  rw [Genome.mutate, List.getD_eq_getElem?_getD, List.getD_eq_getElem?_getD,
    List.getElem?_set_ne (fun hx => hi hx.symm)]

/-- Witness for claim C8 at a concrete genome and draw. -/
theorem genome_mutate_changes_at_most_one_witness :
    (List.replicate 13 Gene.None).length = 13 ∧
    ((Genome.mutate (List.replicate 13 Gene.None) 0 1).length = 13 ∧
      countDiff (List.replicate 13 Gene.None)
        (Genome.mutate (List.replicate 13 Gene.None) 0 1) ≤ 1 ∧
      ∀ i : Nat, i ≠ (0 : Fin 13).val →
        (Genome.mutate (List.replicate 13 Gene.None) 0 1).getD i Gene.None =
          (List.replicate 13 Gene.None).getD i Gene.None) :=
  ⟨by decide, genome_mutate_changes_at_most_one (List.replicate 13 Gene.None) 0 1 (by decide)⟩

/-- Membership in the combat pair selection: exactly the index pairs
`i < j` of snapshot positions with squared distance at most 50. -/
theorem mem_combatPairs_iff (ps : List (ℚ × ℚ)) (i j : Nat) :
    (i, j) ∈ combatPairs ps ↔
      i < ps.length ∧ j < ps.length ∧ i < j ∧
        dist2 (ps.getD i (0, 0)) (ps.getD j (0, 0)) ≤ 50 := by
  simp only [combatPairs, List.mem_flatMap, List.mem_map, List.mem_filter, List.mem_range,
    decide_eq_true_eq, Prod.mk.injEq]
  constructor
  · rintro ⟨a, ha, b, ⟨hb, hab, hd⟩, rfl, rfl⟩
    exact ⟨ha, hb, hab, hd⟩
  · rintro ⟨hi, hj, hij, hd⟩
    exact ⟨i, hi, j, ⟨hj, hij, hd⟩, rfl, rfl⟩

/-- Claim C1 (counterexample): two organisms at Euclidean distance 20
(squared distance 400, within the claimed Euclidean radius of 50) do not
have a combat interaction resolved: `locate_within_distance(p, 50.0)`
bounds the squared distance by 50, not the Euclidean distance. -/
theorem collision_radius_counterexample :
    dist2 ((0 : ℚ), (0 : ℚ)) (20, 0) = 400 ∧ ((400 : ℚ) ≤ 50 ^ 2) ∧
    (0, 1) ∉ combatPairs [((0 : ℚ), (0 : ℚ)), (20, 0)] := by
  refine ⟨by norm_num [dist2], by norm_num, ?_⟩
  rw [mem_combatPairs_iff]
  push_neg
  intro h1 h2 h3
  norm_num [dist2, List.getD_cons_zero, List.getD_cons_succ]

/-- Claim C1 (amended): during a population step a combat interaction is
resolved for exactly the unordered pairs of distinct organisms whose
pre-step positions lie within squared Euclidean distance 50 of each other
(Euclidean distance at most the square root of 50, about 7.07), the bound
`50.0` being passed to `locate_within_distance` as a maximum squared
distance; each such pair is selected once, with ascending indices. -/
theorem combatPairs_squared_radius (ps : List (ℚ × ℚ)) (i j : Nat) :
    (i, j) ∈ combatPairs ps ↔
      i < ps.length ∧ j < ps.length ∧ i < j ∧
        dist2 (ps.getD i (0, 0)) (ps.getD j (0, 0)) ≤ 50 :=
  mem_combatPairs_iff ps i j

/-- For a nonnegative quotient the Rust remainder is the floored remainder,
written with the fractional part. -/
theorem rustRem_fract (a b : ℚ) (hb : 0 < b) (h : 0 ≤ a / b) :
    rustRem a b = b * Int.fract (a / b) := by
  have hbne : b ≠ 0 := hb.ne'
  unfold rustRem ratTrunc
  rw [if_pos h]
  have hf : (Int.fract (a / b) : ℚ) = a / b - ⌊a / b⌋ := rfl
  rw [hf]
  field_simp

/-- The Rust remainder by a positive divisor lies strictly between `-b`
and `b`. -/
theorem rustRem_bounds (a b : ℚ) (hb : 0 < b) :
    -b < rustRem a b ∧ rustRem a b < b := by
  have hbne : b ≠ 0 := hb.ne'
  by_cases h : 0 ≤ a / b
  · rw [rustRem_fract a b hb h]
    constructor
    · have := mul_nonneg hb.le (Int.fract_nonneg (a / b))
      linarith
    · have := (mul_lt_mul_left hb).2 (Int.fract_lt_one (a / b))
      simpa using this
  · unfold rustRem ratTrunc
    rw [if_neg h]
    have h1 : a / b ≤ (⌈a / b⌉ : ℚ) := Int.le_ceil _
    have h2 : (⌈a / b⌉ : ℚ) < a / b + 1 := Int.ceil_lt_add_one _
    have ha : a = b * (a / b) := by field_simp
    constructor
    · nlinarith [mul_lt_mul_of_pos_left h2 hb]
    · nlinarith [mul_le_mul_of_nonneg_left h1 hb.le]

/-- The `modulus` helper computes `b` times the fractional part of `a / b`:
the floored (euclidean-style) modulus for a positive divisor. -/
theorem modulus_fract (a b : ℚ) (hb : 0 < b) :
    modulus a b = b * Int.fract (a / b) := by
  have hbne : b ≠ 0 := hb.ne'
  obtain ⟨hlo, hhi⟩ := rustRem_bounds a b hb
  have hpos : 0 ≤ (rustRem a b + b) / b := div_nonneg (by linarith) hb.le
  have h1 : modulus a b = b * Int.fract ((rustRem a b + b) / b) := by
    unfold modulus
    exact rustRem_fract _ b hb hpos
  have h2 : (rustRem a b + b) / b = a / b + ((1 - ratTrunc (a / b) : ℤ) : ℚ) := by
    unfold rustRem
    push_cast
    field_simp
    ring
  rw [h1, h2, Int.fract_add_int]

/-- `modulus` is the floored modulus: `a - b * ⌊a / b⌋`. -/
theorem modulus_floored (a b : ℚ) (hb : 0 < b) :
    modulus a b = a - b * ⌊a / b⌋ := by
  have hbne : b ≠ 0 := hb.ne'
  rw [modulus_fract a b hb]
  have hf : (Int.fract (a / b) : ℚ) = a / b - ⌊a / b⌋ := rfl
  rw [hf]
  field_simp

theorem modulus_nonneg (a b : ℚ) (hb : 0 < b) : 0 ≤ modulus a b := by
  rw [modulus_fract a b hb]
  exact mul_nonneg hb.le (Int.fract_nonneg _)

theorem modulus_lt (a b : ℚ) (hb : 0 < b) : modulus a b < b := by
  rw [modulus_fract a b hb]
  have := (mul_lt_mul_left hb).2 (Int.fract_lt_one (a / b))
  simpa using this

/-- The reproduction phase leaves the parent position and velocity
untouched (it only rewrites the parent energy). -/
theorem reproPhase_fst_motion_frame (b : Biot) (cb : Option ℚ) (o : StepOracle) :
    (Biot.reproPhase b cb o).1.stats.posX = b.stats.posX ∧
    (Biot.reproPhase b cb o).1.stats.posY = b.stats.posY ∧
    (Biot.reproPhase b cb o).1.stats.speedX = b.stats.speedX ∧
    (Biot.reproPhase b cb o).1.stats.speedY = b.stats.speedY := by
  unfold Biot.reproPhase
  split
  · split
    · exact ⟨rfl, rfl, rfl, rfl⟩
    · exact ⟨rfl, rfl, rfl, rfl⟩
  · exact ⟨rfl, rfl, rfl, rfl⟩

/-- The motion decision only accelerates: the position is untouched. -/
theorem motionPhase_pos_frame (b : Biot) (fd : Option (ℚ × ℚ)) (o : StepOracle) :
    (Biot.motionPhase b fd o).stats.posX = b.stats.posX ∧
    (Biot.motionPhase b fd o).stats.posY = b.stats.posY := by
  cases fd with
  | none =>
      unfold Biot.motionPhase Biot.accelerate
      split
      · split
        · exact ⟨rfl, rfl⟩
        · exact ⟨rfl, rfl⟩
      · exact ⟨rfl, rfl⟩
  | some fd =>
      unfold Biot.motionPhase Biot.accelerate
      split
      · split
        · exact ⟨rfl, rfl⟩
        · exact ⟨rfl, rfl⟩
      · exact ⟨rfl, rfl⟩

/-- The post-step x position is the wrapped sum of the pre-step x position
and x velocity. -/
theorem step_fst_posX (b : Biot) (cb : Option ℚ) (fd : Option (ℚ × ℚ))
    (w h : ℚ) (o : StepOracle) :
    (Biot.step b cb fd w h o).1.stats.posX =
      modulus (b.stats.posX + b.stats.speedX) w := by
  obtain ⟨h1, h2, h3, h4⟩ := reproPhase_fst_motion_frame b cb o
  have hm := motionPhase_pos_frame
    (Biot.energyPhase (Biot.dragPhase (Biot.movePhase (Biot.reproPhase b cb o).1 w h))) fd o
  show (Biot.motionPhase (Biot.energyPhase (Biot.dragPhase
      (Biot.movePhase (Biot.reproPhase b cb o).1 w h))) fd o).stats.posX = _
  rw [hm.1]
  show modulus ((Biot.reproPhase b cb o).1.stats.posX +
      (Biot.reproPhase b cb o).1.stats.speedX) w = _
  rw [h1, h3]

/-- The post-step y position is the wrapped sum of the pre-step y position
and y velocity. -/
theorem step_fst_posY (b : Biot) (cb : Option ℚ) (fd : Option (ℚ × ℚ))
    (w h : ℚ) (o : StepOracle) :
    (Biot.step b cb fd w h o).1.stats.posY =
      modulus (b.stats.posY + b.stats.speedY) h := by
  obtain ⟨h1, h2, h3, h4⟩ := reproPhase_fst_motion_frame b cb o
  have hm := motionPhase_pos_frame
    (Biot.energyPhase (Biot.dragPhase (Biot.movePhase (Biot.reproPhase b cb o).1 w h))) fd o
  show (Biot.motionPhase (Biot.energyPhase (Biot.dragPhase
      (Biot.movePhase (Biot.reproPhase b cb o).1 w h))) fd o).stats.posY = _
  rw [hm.2]
  show modulus ((Biot.reproPhase b cb o).1.stats.posY +
      (Biot.reproPhase b cb o).1.stats.speedY) h = _
  rw [h2, h4]

/-- Claim C6: after the position update of a step, each coordinate lies in
`[0, extent)`, equals the floored modulus of the unwrapped sum of the old
coordinate and the velocity component, and is congruent to that unwrapped
sum modulo the corresponding world extent (toroidal wraparound, not
clamping or reflection). -/
theorem biot_step_position_wraparound (b : Biot) (closeBy : Option ℚ)
    (feedDir : Option (ℚ × ℚ)) (width height : ℚ) (o : StepOracle)
    (hw : 0 < width) (hh : 0 < height) :
    (0 ≤ (Biot.step b closeBy feedDir width height o).1.stats.posX ∧
      (Biot.step b closeBy feedDir width height o).1.stats.posX < width ∧
      (Biot.step b closeBy feedDir width height o).1.stats.posX =
        (b.stats.posX + b.stats.speedX) -
          width * ⌊(b.stats.posX + b.stats.speedX) / width⌋ ∧
      ∃ k : ℤ, (Biot.step b closeBy feedDir width height o).1.stats.posX =
        (b.stats.posX + b.stats.speedX) + width * k) ∧
    (0 ≤ (Biot.step b closeBy feedDir width height o).1.stats.posY ∧
      (Biot.step b closeBy feedDir width height o).1.stats.posY < height ∧
      (Biot.step b closeBy feedDir width height o).1.stats.posY =
        (b.stats.posY + b.stats.speedY) -
          height * ⌊(b.stats.posY + b.stats.speedY) / height⌋ ∧
      ∃ k : ℤ, (Biot.step b closeBy feedDir width height o).1.stats.posY =
        (b.stats.posY + b.stats.speedY) + height * k) := by
  rw [step_fst_posX b closeBy feedDir width height o,
    step_fst_posY b closeBy feedDir width height o]
  refine ⟨⟨modulus_nonneg _ _ hw, modulus_lt _ _ hw, modulus_floored _ _ hw,
      ⟨-⌊(b.stats.posX + b.stats.speedX) / width⌋, ?_⟩⟩,
    ⟨modulus_nonneg _ _ hh, modulus_lt _ _ hh, modulus_floored _ _ hh,
      ⟨-⌊(b.stats.posY + b.stats.speedY) / height⌋, ?_⟩⟩⟩
  · rw [modulus_floored _ _ hw]
    push_cast
    ring
  · rw [modulus_floored _ _ hh]
    push_cast
    ring

/-- Witness for claim C6 at a concrete biot and 100 by 100 world. -/
theorem biot_step_position_wraparound_witness :
    (0 : ℚ) < 100 ∧
    ((0 ≤ (Biot.step ⟨⟨0, 95, 30, 10, -50, 0⟩, [], Properties.default⟩ none none 100 100
        ⟨[], 0, 0, 1, 0, 0⟩).1.stats.posX ∧
      (Biot.step ⟨⟨0, 95, 30, 10, -50, 0⟩, [], Properties.default⟩ none none 100 100
        ⟨[], 0, 0, 1, 0, 0⟩).1.stats.posX < 100 ∧
      (Biot.step ⟨⟨0, 95, 30, 10, -50, 0⟩, [], Properties.default⟩ none none 100 100
        ⟨[], 0, 0, 1, 0, 0⟩).1.stats.posX =
        ((95 : ℚ) + 10) - 100 * ⌊((95 : ℚ) + 10) / 100⌋ ∧
      ∃ k : ℤ, (Biot.step ⟨⟨0, 95, 30, 10, -50, 0⟩, [], Properties.default⟩ none none 100 100
        ⟨[], 0, 0, 1, 0, 0⟩).1.stats.posX = ((95 : ℚ) + 10) + 100 * k) ∧
    (0 ≤ (Biot.step ⟨⟨0, 95, 30, 10, -50, 0⟩, [], Properties.default⟩ none none 100 100
        ⟨[], 0, 0, 1, 0, 0⟩).1.stats.posY ∧
      (Biot.step ⟨⟨0, 95, 30, 10, -50, 0⟩, [], Properties.default⟩ none none 100 100
        ⟨[], 0, 0, 1, 0, 0⟩).1.stats.posY < 100 ∧
      (Biot.step ⟨⟨0, 95, 30, 10, -50, 0⟩, [], Properties.default⟩ none none 100 100
        ⟨[], 0, 0, 1, 0, 0⟩).1.stats.posY =
        ((30 : ℚ) + -50) - 100 * ⌊((30 : ℚ) + -50) / 100⌋ ∧
      ∃ k : ℤ, (Biot.step ⟨⟨0, 95, 30, 10, -50, 0⟩, [], Properties.default⟩ none none 100 100
        ⟨[], 0, 0, 1, 0, 0⟩).1.stats.posY = ((30 : ℚ) + -50) + 100 * k)) :=
  ⟨by norm_num,
    biot_step_position_wraparound ⟨⟨0, 95, 30, 10, -50, 0⟩, [], Properties.default⟩ none none
      100 100 ⟨[], 0, 0, 1, 0, 0⟩ (by norm_num) (by norm_num)⟩

/-- Mutating the genome (any number of times) never changes the runtime
stats of a biot. -/
theorem mutateLoop_stats (l : List MutationDraw) (b : Biot) :
    (Biot.mutateLoop l b).stats = b.stats := by
  induction l generalizing b with
  | nil => rfl
  | cons d rest ih =>
      unfold Biot.mutateLoop
      split
      · rw [ih]
        rfl
      · rfl

/-- Claim C4: a biot step returns exactly one offspring precisely when the
energy is at least 4 times the base life and the 6th-nearest indexed point
is absent or beyond squared distance 200; the offspring has age 0 and
energy equal to its own base life, and the reproduction block sets the
parent energy to exactly 3 times the parent base life.  Otherwise the step
returns no offspring. -/
theorem biot_step_reproduction (b : Biot) (closeBy : Option ℚ)
    (feedDir : Option (ℚ × ℚ)) (width height : ℚ) (o : StepOracle) :
    ((Biot.step b closeBy feedDir width height o).2).elim
      (¬ (Biot.base_life b * 4.0 ≤ b.stats.life ∧ crowdingOK closeBy))
      (fun off =>
        (Biot.base_life b * 4.0 ≤ b.stats.life ∧ crowdingOK closeBy) ∧
        off.stats.age = 0 ∧
        off.stats.life = Biot.base_life off ∧
        (Biot.reproPhase b closeBy o).1.stats.life = 3 * Biot.base_life b) := by
  have hs : (Biot.step b closeBy feedDir width height o).2 =
      (Biot.reproPhase b closeBy o).2 := rfl
  rw [hs]
  unfold Biot.reproPhase
  by_cases h1 : Biot.base_life b * 4.0 ≤ b.stats.life
  · by_cases h2 : crowdingOK closeBy
    · rw [if_pos h1, if_pos h2]
      refine ⟨⟨h1, h2⟩, ?_, ?_, ?_⟩
      · show (Biot.mutateLoop o.mutationDraws
            { b with stats := { b.stats with age := 0 } }).stats.age = 0
        rw [mutateLoop_stats]
      · rfl
      · show (4.0 - 1.0) * Biot.base_life b = 3 * Biot.base_life b
        norm_num
    · rw [if_pos h1, if_neg h2]
      exact fun hc => h2 hc.2
  · rw [if_neg h1]
    exact fun hc => h1 hc.1

/-- `getD` at the overwritten index of a biot list. -/
theorem getD_set_self (l : List Biot) (i : Nat) (x : Biot) (h : i < l.length) :
    (l.set i x).getD i default = x := by
  rw [List.getD_eq_getElem?_getD, List.getElem?_set_self h]
  rfl

/-- `getD` at a different index than the overwritten one. -/
theorem getD_set_ne (l : List Biot) (i j : Nat) (x : Biot) (h : i ≠ j) :
    (l.set i x).getD j default = l.getD j default := by
  rw [List.getD_eq_getElem?_getD, List.getElem?_set_ne h, ← List.getD_eq_getElem?_getD]

/-- Claim C5 (counterexample): two organisms at squared distance 9 — a
resolved combat pair, since 9 is at most 50 — with the first strictly
stronger and the second not stronger, yet `interact` changes nothing: the
inner proximity test `dist < 10 * (weight_i + weight_j)` fails (distance 3
against threshold 1), so no energy is transferred and the weaker biot
keeps energy 10 instead of the claimed 0. -/
theorem interact_inner_distance_counterexample :
    dist2 (Biot.pos ⟨⟨5, 0, 0, 0, 0, 0⟩, [], ⟨0.1, 0, 0, 0, 0⟩⟩)
        (Biot.pos ⟨⟨10, 3, 0, 0, 0, 0⟩, [], Properties.default⟩) ≤ 50 ∧
    Biot.is_stronger ⟨⟨5, 0, 0, 0, 0, 0⟩, [], ⟨0.1, 0, 0, 0, 0⟩⟩
        ⟨⟨10, 3, 0, 0, 0, 0⟩, [], Properties.default⟩ ∧
    ¬ Biot.is_stronger ⟨⟨10, 3, 0, 0, 0, 0⟩, [], Properties.default⟩
        ⟨⟨5, 0, 0, 0, 0, 0⟩, [], ⟨0.1, 0, 0, 0, 0⟩⟩ ∧
    Biot.interact
        [⟨⟨5, 0, 0, 0, 0, 0⟩, [], ⟨0.1, 0, 0, 0, 0⟩⟩,
          ⟨⟨10, 3, 0, 0, 0, 0⟩, [], Properties.default⟩] 0 1 =
      [⟨⟨5, 0, 0, 0, 0, 0⟩, [], ⟨0.1, 0, 0, 0, 0⟩⟩,
        ⟨⟨10, 3, 0, 0, 0, 0⟩, [], Properties.default⟩] ∧
    ((Biot.interact
        [⟨⟨5, 0, 0, 0, 0, 0⟩, [], ⟨0.1, 0, 0, 0, 0⟩⟩,
          ⟨⟨10, 3, 0, 0, 0, 0⟩, [], Properties.default⟩] 0 1).getD 1
        default).stats.life = 10 := by
  have hinteract : Biot.interact
      [⟨⟨5, 0, 0, 0, 0, 0⟩, [], ⟨0.1, 0, 0, 0, 0⟩⟩,
        ⟨⟨10, 3, 0, 0, 0, 0⟩, [], Properties.default⟩] 0 1 =
      [⟨⟨5, 0, 0, 0, 0, 0⟩, [], ⟨0.1, 0, 0, 0, 0⟩⟩,
        ⟨⟨10, 3, 0, 0, 0, 0⟩, [], Properties.default⟩] := by
    unfold Biot.interact
    split
    next hreach =>
      exfalso
      revert hreach
      norm_num [Biot.withinReach, dist2, Biot.pos, Properties.weight, Properties.default,
        List.getD_cons_zero, List.getD_cons_succ]
    next => rfl
  refine ⟨by norm_num [dist2, Biot.pos],
    by norm_num [Biot.is_stronger, Properties.default],
    by norm_num [Biot.is_stronger, Properties.default], hinteract, ?_⟩
  rw [hinteract]
  rfl

/-- Claim C5 (amended): for a resolved combat pair, combat effects are
additionally gated by the proximity check inside `interact` (Euclidean
distance below `10 * (weight_i + weight_j)`).  Within that reach, if the
first organism is stronger its energy grows by 0.8 times the other energy
and the other energy becomes 0; outside that reach, or when neither is
stronger, the list is unchanged.  With nonnegative defenses the two
organisms can never both be stronger, so the claimed both-stronger case is
vacuous. -/
theorem interact_resolution (bs : List Biot) (i j : Nat)
    (hi : i < bs.length) (hj : j < bs.length) (hij : i ≠ j)
    (hdi : 0 ≤ (bs.getD i default).properties.defense)
    (hdj : 0 ≤ (bs.getD j default).properties.defense) :
    (¬ (Biot.is_stronger (bs.getD i default) (bs.getD j default) ∧
        Biot.is_stronger (bs.getD j default) (bs.getD i default))) ∧
    (Biot.withinReach (bs.getD i default) (bs.getD j default) →
      Biot.is_stronger (bs.getD i default) (bs.getD j default) →
      ((Biot.interact bs i j).getD i default).stats.life =
          (bs.getD i default).stats.life + (bs.getD j default).stats.life * 0.8 ∧
        ((Biot.interact bs i j).getD j default).stats.life = 0) ∧
    (¬ Biot.withinReach (bs.getD i default) (bs.getD j default) →
      Biot.interact bs i j = bs) ∧
    (¬ Biot.is_stronger (bs.getD i default) (bs.getD j default) →
      ¬ Biot.is_stronger (bs.getD j default) (bs.getD i default) →
      Biot.interact bs i j = bs) := by
  refine ⟨?_, ?_, ?_, ?_⟩
  · rintro ⟨hab, hba⟩
    unfold Biot.is_stronger at hab hba
    linarith
  · intro hr hs
    unfold Biot.interact
    rw [if_pos hr, if_pos hs]
    constructor
    · rw [getD_set_ne _ j i _ (fun hx => hij hx.symm),
        getD_set_self bs i _ (by simpa using hi)]
    · rw [getD_set_self _ j _ (by simpa using hj)]
  · intro hr
    unfold Biot.interact
    rw [if_neg hr]
  · intro h1 h2
    unfold Biot.interact
    by_cases hr : Biot.withinReach (bs.getD i default) (bs.getD j default)
    · rw [if_pos hr, if_neg h1, if_neg h2]
    · rw [if_neg hr]

/-- The concrete in-reach pair used by the claim C5 witness. -/
def witnessPair : List Biot :=
  [⟨⟨5, 0, 0, 0, 0, 0⟩, [], ⟨0.1, 0, 0, 0, 0⟩⟩,
    ⟨⟨10, 0, 1, 0, 0, 0⟩, [], ⟨0, 0, 0.1, 0, 0⟩⟩]

/-- Witness for claim C5 at a concrete in-reach pair: the stronger biot
(energy 5) absorbs 80 percent of the weaker biot energy (10), ending at 13,
and the weaker biot ends at 0. -/
theorem interact_resolution_witness :
    (0 < witnessPair.length ∧ 1 < witnessPair.length ∧ (0 : Nat) ≠ 1 ∧
      0 ≤ (witnessPair.getD 0 default).properties.defense ∧
      0 ≤ (witnessPair.getD 1 default).properties.defense) ∧
    ((Biot.interact witnessPair 0 1).getD 0 default).stats.life = 13 ∧
    ((Biot.interact witnessPair 0 1).getD 1 default).stats.life = 0 := by
  have key := interact_resolution witnessPair 0 1 (by norm_num [witnessPair])
    (by norm_num [witnessPair]) (by norm_num)
    (by norm_num [witnessPair, List.getD_cons_zero])
    (by norm_num [witnessPair, List.getD_cons_succ, List.getD_cons_zero])
  have hreach : Biot.withinReach (witnessPair.getD 0 default) (witnessPair.getD 1 default) := by
    norm_num [witnessPair, Biot.withinReach, dist2, Biot.pos, Properties.weight,
      List.getD_cons_zero, List.getD_cons_succ]
  have hstrong : Biot.is_stronger (witnessPair.getD 0 default) (witnessPair.getD 1 default) := by
    norm_num [witnessPair, Biot.is_stronger, List.getD_cons_zero, List.getD_cons_succ]
  obtain ⟨h1, h2⟩ := key.2.1 hreach hstrong
  refine ⟨⟨by norm_num [witnessPair], by norm_num [witnessPair], by norm_num,
    by norm_num [witnessPair, List.getD_cons_zero],
    by norm_num [witnessPair, List.getD_cons_succ, List.getD_cons_zero]⟩, ?_, h2⟩
  rw [h1]
  norm_num [witnessPair, List.getD_cons_zero, List.getD_cons_succ]

/-- The concrete random oracle used by the claim C10 witness. -/
def sampleOracle : Nat → RandomBiotOracle := fun _ => ⟨fun _ => 1, 1/2, 1/3⟩

/-- Claim C10: `BiotCollection::new(len)` creates exactly `len` organisms,
each freshly created random organism starting with energy equal to its own
base life (8 times its weight), age 0, zero velocity, and a position inside
`[0, width) × [0, height)`. -/
theorem biot_collection_new_spec (len : Nat) (oracle : Nat → RandomBiotOracle)
    (width height : ℚ) (hw : 0 < width) (hh : 0 < height)
    (ho : ∀ i, 0 ≤ (oracle i).posDrawX ∧ (oracle i).posDrawX < 1 ∧
        0 ≤ (oracle i).posDrawY ∧ (oracle i).posDrawY < 1) :
    (BiotCollection.new len oracle width height).length = len ∧
    ∀ b ∈ BiotCollection.new len oracle width height,
      b.stats.life = Biot.base_life b ∧
      Biot.base_life b = 8.0 * Properties.weight b.properties ∧
      b.stats.age = 0 ∧ b.stats.speedX = 0 ∧ b.stats.speedY = 0 ∧
      0 ≤ b.stats.posX ∧ b.stats.posX < width ∧
      0 ≤ b.stats.posY ∧ b.stats.posY < height := by
  constructor
  · simp [BiotCollection.new]
  · intro b hb
    simp only [BiotCollection.new, List.mem_map, List.mem_range] at hb
    obtain ⟨i, hi, rfl⟩ := hb
    obtain ⟨h1, h2, h3, h4⟩ := ho i
    refine ⟨rfl, rfl, rfl, rfl, rfl, ?_, ?_, ?_, ?_⟩
    · exact mul_nonneg h1 hw.le
    · calc (oracle i).posDrawX * width < 1 * width := mul_lt_mul_of_pos_right h2 hw
        _ = width := one_mul width
    · exact mul_nonneg h3 hh.le
    · calc (oracle i).posDrawY * height < 1 * height := mul_lt_mul_of_pos_right h4 hh
        _ = height := one_mul height

/-- Witness for claim C10 with two biots on a 100 by 50 world. -/
theorem biot_collection_new_spec_witness :
    ((0 : ℚ) < 100 ∧ (0 : ℚ) < 50 ∧
      (∀ i, 0 ≤ (sampleOracle i).posDrawX ∧ (sampleOracle i).posDrawX < 1 ∧
        0 ≤ (sampleOracle i).posDrawY ∧ (sampleOracle i).posDrawY < 1)) ∧
    ((BiotCollection.new 2 sampleOracle 100 50).length = 2 ∧
      ∀ b ∈ BiotCollection.new 2 sampleOracle 100 50,
        b.stats.life = Biot.base_life b ∧
        Biot.base_life b = 8.0 * Properties.weight b.properties ∧
        b.stats.age = 0 ∧ b.stats.speedX = 0 ∧ b.stats.speedY = 0 ∧
        0 ≤ b.stats.posX ∧ b.stats.posX < 100 ∧
        0 ≤ b.stats.posY ∧ b.stats.posY < 50) :=
  ⟨⟨by norm_num, by norm_num, fun i => by norm_num [sampleOracle]⟩,
    biot_collection_new_spec 2 sampleOracle 100 50 (by norm_num) (by norm_num)
      (fun i => by norm_num [sampleOracle])⟩

end LifeWeb

